import Mathlib

/-!
Shallow embedding of the reflection workflow from `src/reflection`
(`state.py`, `config.py`, `nodes.py`, `graph_simple.py`).

The workflow is a LangGraph state machine over a dict-like state
(`MessageResponseState`): `start → writer → reviewer → (conditional:
writer | publisher) → end`.  LLM calls are external collaborators; their
outputs are modelled as oracle inputs (`Oracles`).  LangGraph merges the
`messages` key returned by a node into the running state with the
add-messages reducer, so each node function below is the net effect of one
node invocation on the full state: appended log entries, overwritten keys.
Absent dict keys are modelled with `Option` (`none` = key absent) and
Python `dict.get(k, d)` with `Option.getD`.
-/

namespace Reflection

/-- A conversation-log / prompt entry: a LangChain message with a kind
("human", "ai", "system"), an optional author name, and content. -/
structure Entry where
  kind : String
  author : Option String
  content : String
deriving DecidableEq, Inhabited

/-- The dict state `MessageResponseState` of `state.py`.  A `none` field
models an absent key. -/
structure MessageResponseState where
  messages : List Entry := []
  original_customer_message : Option String := none
  revision_count : Option Nat := none
  latest_feedback_for_writer : Option String := none
  latest_message_response_by_writer : Option String := none
  latest_reviewer_decision : Option String := none
  continue_revision : Option Bool := none
deriving DecidableEq, Inhabited

namespace Decision

/-- `Decision.APPROVE.value` of `state.py`. -/
def APPROVE : String := "APPROVE"

/-- `Decision.REVISE.value` of `state.py`. -/
def REVISE : String := "REVISE"

end Decision

namespace NodeName

/-- `NodeName.WRITER.value` of `state.py`. -/
def WRITER : String := "writer_node"

/-- `NodeName.REVIEWER.value` of `state.py`. -/
def REVIEWER : String := "reviewer_node"

/-- `NodeName.PUBLISHER.value` of `state.py`. -/
def PUBLISHER : String := "publisher_node"

end NodeName

/-- Default of the `MAX_REVISIONS` configuration constant (`config.py`). -/
def MAX_REVISIONS : Nat := 3

/-- Default of the `MAX_REVISIONS_MESSAGE` configuration constant
(`config.py`). -/
def MAX_REVISIONS_MESSAGE : String :=
  "MAX REVISIONS REACHED - APPROVING CURRENT VERSION"

/-- `state.get("revision_count", 0)`, the reading of the revision counter
used by `writer_node` and `reviewer_node` in `nodes.py`. -/
def rcD (s : MessageResponseState) : Nat :=
  s.revision_count.getD 0

/-- Python rendering of a bool inside an f-string. -/
def pyBool (b : Bool) : String :=
  if b then "True" else "False"

/-- Python truthiness of an `Optional[str]` (`if feedback:` in
`_create_writer_messages`): `None` and the empty string are falsy. -/
def truthy (s : Option String) : Bool :=
  match s with
  | none => false
  | some t => !(t == "")

/-- `_create_writer_messages` of `nodes.py`: system prompt, the prior
conversation log, the original customer message, and - only when
`feedback` is truthy - a revision directive carrying the feedback. -/
def _create_writer_messages (writer_prompt : String)
    (state : MessageResponseState) (feedback : Option String) : List Entry :=
  let messages :=
    Entry.mk "system" none writer_prompt :: state.messages
  let messages := messages ++
    [Entry.mk "human" none
      ("\n\nOriginal Customer Message: \n" ++
        state.original_customer_message.getD "" ++ "\n\n")]
  if truthy feedback then
    messages ++
      [Entry.mk "human" none
        ("\n\nReviewer Feedback:\n" ++ feedback.getD "" ++
          "\n\nPlease revise your response based on this feedback.")]
  else
    messages

/-- The feedback value `writer_node` computes before building its request:
`state.get("latest_feedback_for_writer", "")` when `revision_count > 0` and
the latest decision is `REVISE`, otherwise `None`. -/
def writer_feedback (state : MessageResponseState) : Option String :=
  if decide (0 < rcD state) &&
      (state.latest_reviewer_decision == some Decision.REVISE) then
    some (state.latest_feedback_for_writer.getD "")
  else
    none

/-- The full generation request composed by `writer_node`. -/
def writer_request (writer_prompt : String)
    (state : MessageResponseState) : List Entry :=
  _create_writer_messages writer_prompt state (writer_feedback state)

/-- `_update_writer_state` of `nodes.py`: store the generated draft,
increment `revision_count` by one, and append one log entry authored by
the writer (the add-messages reducer appends the returned message). -/
def _update_writer_state (state : MessageResponseState)
    (response_content : String) : MessageResponseState :=
  let revision_count := rcD state
  { state with
    revision_count := some (revision_count + 1),
    latest_message_response_by_writer := some response_content,
    messages := state.messages ++
      [Entry.mk "ai" (some NodeName.WRITER) response_content] }

/-- `writer_node` of `nodes.py`; `gen` is the text produced by the
generation capability (`llm.invoke(...).content`). -/
def writer_node (gen : String) (state : MessageResponseState) :
    MessageResponseState :=
  _update_writer_state state gen

/-- `reviewer_node` of `nodes.py`; `feedback_text` is the free-text output
of the generation capability and `extraction` is
`reviewer_response.get("decision", ...)` input: `none` models a structured
result without a `decision` key, `some v` a structured result carrying
`v`.  The cap branch returns before either capability is invoked. -/
def reviewer_node (maxRev : Nat) (capMsg : String) (feedback_text : String)
    (extraction : Option String) (state : MessageResponseState) :
    MessageResponseState :=
  let revision_count := rcD state
  if revision_count ≥ maxRev then
    { state with
      continue_revision := some false,
      latest_reviewer_decision := some Decision.APPROVE,
      messages := state.messages ++
        [Entry.mk "human" (some NodeName.REVIEWER) capMsg,
         Entry.mk "human" (some NodeName.REVIEWER)
           (toString revision_count ++ " reviewer decision: " ++
             Decision.APPROVE),
         Entry.mk "human" (some NodeName.REVIEWER)
           (toString revision_count ++ " continue revision?: " ++
             pyBool false)] }
  else
    let decision := extraction.getD Decision.REVISE
    let continue_revision :=
      (decision == Decision.REVISE) && decide (revision_count < maxRev)
    { state with
      latest_feedback_for_writer := some feedback_text,
      latest_reviewer_decision := some decision,
      continue_revision := some continue_revision,
      messages := state.messages ++
        [Entry.mk "human" (some NodeName.REVIEWER)
           (toString revision_count ++ " - feedback for writer: " ++
             feedback_text),
         Entry.mk "human" (some NodeName.REVIEWER)
           (toString revision_count ++ " - reviewer decision: " ++ decision),
         Entry.mk "human" (some NodeName.REVIEWER)
           (toString revision_count ++ " - continue revision?: " ++
             pyBool continue_revision)] }

/-- Number of generation-capability invocations performed by one
`reviewer_node` call: zero on the cap branch (it returns before the LLM is
initialised), two otherwise (`llm.invoke` plus the structured-output
extraction call). -/
def reviewer_llm_calls (maxRev : Nat) (s : MessageResponseState) : Nat :=
  if rcD s ≥ maxRev then 0 else 2

/-- `publisher_node` of `nodes.py`: returns `{**state}`, the identity on
the data model. -/
def publisher_node (state : MessageResponseState) : MessageResponseState :=
  state

/-- `should_continue` of `graph_simple.py`: route on
`state.get("continue_revision", False)`. -/
def should_continue (state : MessageResponseState) : String :=
  if state.continue_revision.getD false then NodeName.WRITER
  else NodeName.PUBLISHER

/-- The initial state built by `process_customer_message` in
`graph_simple.py`. -/
def initial_state (customer_message : String) : MessageResponseState :=
  { messages := [Entry.mk "human" none customer_message],
    original_customer_message := some customer_message,
    revision_count := some 0,
    latest_feedback_for_writer := some "",
    latest_message_response_by_writer := some "",
    latest_reviewer_decision := some Decision.REVISE,
    continue_revision := some true }

/-- Outputs of the external LLM collaborators, indexed by loop iteration:
`gen i` is the writer generation of iteration `i`, `fb i` the reviewer
free-text feedback, `ext i` the structured decision-extraction result
(`none` = no `decision` key in the structured output). -/
structure Oracles where
  gen : Nat → String
  fb : Nat → String
  ext : Nat → Option String

/-- One `writer → reviewer` iteration of the graph. -/
def stepIter (maxRev : Nat) (capMsg : String) (o : Oracles) (i : Nat)
    (s : MessageResponseState) : MessageResponseState :=
  reviewer_node maxRev capMsg (o.fb i) (o.ext i) (writer_node (o.gen i) s)

/-- Fuelled execution of the compiled graph from the writer node: each
iteration runs `writer_node` then `reviewer_node`, then follows the
conditional edge `should_continue`; when the route is not the writer, the
publisher runs and the machine stops.  Returns the trace of node
invocations (node name, post-state) or `none` if the fuel runs out. -/
def loopTraceF (maxRev : Nat) (capMsg : String) (o : Oracles) :
    Nat → Nat → MessageResponseState →
      Option (List (String × MessageResponseState))
  | 0, _, _ => none
  | fuel + 1, i, s =>
    if should_continue (stepIter maxRev capMsg o i s) = NodeName.WRITER then
      (loopTraceF maxRev capMsg o fuel (i + 1) (stepIter maxRev capMsg o i s)).map
        (fun t =>
          (NodeName.WRITER, writer_node (o.gen i) s) ::
          (NodeName.REVIEWER, stepIter maxRev capMsg o i s) :: t)
    else
      some [(NodeName.WRITER, writer_node (o.gen i) s),
            (NodeName.REVIEWER, stepIter maxRev capMsg o i s),
            (NodeName.PUBLISHER, publisher_node (stepIter maxRev capMsg o i s))]

/-- A complete run of `process_customer_message`: the graph executed from
`initial_state` with fuel `maxRev + 1`, which is always sufficient
(`loopTraceF_total`). -/
def run (maxRev : Nat) (capMsg : String) (o : Oracles) (msg : String) :
    List (String × MessageResponseState) :=
  (loopTraceF maxRev capMsg o (maxRev + 1) 0 (initial_state msg)).getD []

/-- Number of writer-node invocations recorded in a trace. -/
def writerCount (t : List (String × MessageResponseState)) : Nat :=
  (t.filter (fun e => e.1 == NodeName.WRITER)).length

/-- The terminal state of a trace (state of its last node invocation). -/
def lastState (t : List (String × MessageResponseState)) :
    MessageResponseState :=
  ((t.getLast?).map Prod.snd).getD default

/-- The `continue_revision` readings (as the router reads them) of every
state reached in a run, the initial state included. -/
def runFlags (maxRev : Nat) (capMsg : String) (o : Oracles) (msg : String) :
    List Bool :=
  (initial_state msg :: (run maxRev capMsg o msg).map Prod.snd).map
    (fun st => st.continue_revision.getD false)

/-! ### Basic lemmas about the individual nodes -/

lemma writer_rc (gen : String) (s : MessageResponseState) :
    (writer_node gen s).revision_count = some (rcD s + 1) := rfl

lemma writer_continue (gen : String) (s : MessageResponseState) :
    (writer_node gen s).continue_revision = s.continue_revision := rfl

lemma writer_feedback_pres (gen : String) (s : MessageResponseState) :
    (writer_node gen s).latest_feedback_for_writer =
      s.latest_feedback_for_writer := rfl

lemma reviewer_rc (maxRev : Nat) (capMsg fb : String) (ext : Option String)
    (s : MessageResponseState) :
    (reviewer_node maxRev capMsg fb ext s).revision_count =
      s.revision_count := by
  by_cases h : rcD s ≥ maxRev <;> simp [reviewer_node, h]

lemma reviewer_sets_continue (maxRev : Nat) (capMsg fb : String)
    (ext : Option String) (s : MessageResponseState) :
    (reviewer_node maxRev capMsg fb ext s).continue_revision =
      some false ∨
    ((reviewer_node maxRev capMsg fb ext s).continue_revision =
        some ((ext.getD Decision.REVISE == Decision.REVISE) &&
          decide (rcD s < maxRev)) ∧ rcD s < maxRev) := by
  by_cases h : rcD s ≥ maxRev
  · left
    simp [reviewer_node, h]
  · right
    refine ⟨?_, by omega⟩
    simp [reviewer_node, h]

lemma should_continue_writer_iff (s : MessageResponseState) :
    should_continue s = NodeName.WRITER ↔
      s.continue_revision.getD false = true := by
  unfold should_continue
  split
  · rename_i h
    simpa [NodeName.WRITER] using h
  · rename_i h
    constructor
    · intro hc
      exact absurd hc (by decide : NodeName.PUBLISHER ≠ NodeName.WRITER)
    · intro hc
      exact absurd hc h

lemma reviewer_continue_true_lt (maxRev : Nat) (capMsg fb : String)
    (ext : Option String) (s : MessageResponseState)
    (h : (reviewer_node maxRev capMsg fb ext s).continue_revision.getD false =
      true) :
    rcD s < maxRev := by
  rcases reviewer_sets_continue maxRev capMsg fb ext s with hc | ⟨_, hlt⟩
  · rw [hc] at h
    simp at h
  · exact hlt

lemma stepIter_rc (maxRev : Nat) (capMsg : String) (o : Oracles) (i : Nat)
    (s : MessageResponseState) :
    rcD (stepIter maxRev capMsg o i s) = rcD s + 1 := by
  unfold stepIter rcD
  rw [reviewer_rc, writer_rc]
  rfl

lemma stepIter_continue_lt (maxRev : Nat) (capMsg : String) (o : Oracles)
    (i : Nat) (s : MessageResponseState)
    (h : should_continue (stepIter maxRev capMsg o i s) = NodeName.WRITER) :
    rcD s + 1 < maxRev := by
  have hflag := (should_continue_writer_iff _).mp h
  have := reviewer_continue_true_lt maxRev capMsg (o.fb i) (o.ext i)
    (writer_node (o.gen i) s) hflag
  have hw : rcD (writer_node (o.gen i) s) = rcD s + 1 := by
    unfold rcD
    rw [writer_rc]
    rfl
  omega

lemma stepIter_continue_flag (maxRev : Nat) (capMsg : String) (o : Oracles)
    (i : Nat) (s : MessageResponseState) :
    (stepIter maxRev capMsg o i s).continue_revision.getD false = true ∨
    (stepIter maxRev capMsg o i s).continue_revision.getD false = false := by
  cases h : (stepIter maxRev capMsg o i s).continue_revision.getD false
  · exact Or.inr rfl
  · exact Or.inl rfl

/-! ### Run-level lemmas -/

lemma loopTraceF_total (maxRev : Nat) (capMsg : String) (o : Oracles) :
    ∀ fuel i s, 0 < fuel → maxRev < rcD s + fuel →
      (loopTraceF maxRev capMsg o fuel i s).isSome := by
  intro fuel
  induction fuel with
  | zero => intro i s h _; omega
  | succ f ih =>
    intro i s _ hbound
    rw [loopTraceF]
    split
    · rename_i hcont
      have hlt := stepIter_continue_lt maxRev capMsg o i s hcont
      have hrc := stepIter_rc maxRev capMsg o i s
      have hs := ih (i + 1) (stepIter maxRev capMsg o i s) (by omega) (by omega)
      rcases Option.isSome_iff_exists.mp hs with ⟨t, ht⟩
      rw [ht]
      rfl
    · rfl

lemma run_spec (maxRev : Nat) (capMsg : String) (o : Oracles) (msg : String) :
    ∃ t, loopTraceF maxRev capMsg o (maxRev + 1) 0 (initial_state msg) =
      some t ∧ run maxRev capMsg o msg = t := by
  have h := loopTraceF_total maxRev capMsg o (maxRev + 1) 0
    (initial_state msg) (by omega) (by simp [rcD, initial_state])
  rcases Option.isSome_iff_exists.mp h with ⟨t, ht⟩
  exact ⟨t, ht, by simp [run, ht]⟩

lemma writerCount_cons_writer (s : MessageResponseState)
    (t : List (String × MessageResponseState)) :
    writerCount ((NodeName.WRITER, s) :: t) = writerCount t + 1 := by
  simp [writerCount, List.filter]

lemma writerCount_cons_reviewer (s : MessageResponseState)
    (t : List (String × MessageResponseState)) :
    writerCount ((NodeName.REVIEWER, s) :: t) = writerCount t := by
  have h : (NodeName.REVIEWER == NodeName.WRITER) = false := by decide
  simp [writerCount, List.filter, h]

lemma writerCount_cons_publisher (s : MessageResponseState)
    (t : List (String × MessageResponseState)) :
    writerCount ((NodeName.PUBLISHER, s) :: t) = writerCount t := by
  have h : (NodeName.PUBLISHER == NodeName.WRITER) = false := by decide
  simp [writerCount, List.filter, h]

lemma loopTraceF_spec (maxRev : Nat) (capMsg : String) (o : Oracles) :
    ∀ fuel i s t, loopTraceF maxRev capMsg o fuel i s = some t →
      t ≠ [] ∧ 0 < writerCount t ∧
      rcD (lastState t) = rcD s + writerCount t ∧
      rcD (lastState t) ≤ max maxRev (rcD s + 1) := by
  intro fuel
  induction fuel with
  | zero => intro i s t h; exact absurd h (by simp [loopTraceF])
  | succ f ih =>
    intro i s t h
    rw [loopTraceF] at h
    split at h
    · rename_i hcont
      rcases Option.map_eq_some'.mp h with ⟨t0, ht0, rfl⟩
      obtain ⟨hne, hwc, hlast, hbound⟩ :=
        ih (i + 1) (stepIter maxRev capMsg o i s) t0 ht0
      have hrc := stepIter_rc maxRev capMsg o i s
      have hlt := stepIter_continue_lt maxRev capMsg o i s hcont
      rcases List.exists_cons_of_ne_nil hne with ⟨x, xs, rfl⟩
      refine ⟨by simp, ?_, ?_, ?_⟩
      · rw [writerCount_cons_writer, writerCount_cons_reviewer]
        omega
      · rw [writerCount_cons_writer, writerCount_cons_reviewer]
        have : lastState ((NodeName.WRITER, writer_node (o.gen i) s) ::
            (NodeName.REVIEWER, stepIter maxRev capMsg o i s) :: x :: xs) =
            lastState (x :: xs) := by
          simp [lastState, List.getLast?_cons_cons]
        rw [this]
        omega
      · have : lastState ((NodeName.WRITER, writer_node (o.gen i) s) ::
            (NodeName.REVIEWER, stepIter maxRev capMsg o i s) :: x :: xs) =
            lastState (x :: xs) := by
          simp [lastState, List.getLast?_cons_cons]
        rw [this]
        omega
    · rename_i hstop
      cases h
      refine ⟨by simp, ?_, ?_, ?_⟩
      · rw [writerCount_cons_writer]
        omega
      · rw [writerCount_cons_writer, writerCount_cons_reviewer,
          writerCount_cons_publisher]
        have : rcD (publisher_node (stepIter maxRev capMsg o i s)) =
            rcD s + 1 := by
          rw [publisher_node, stepIter_rc]
        simp [lastState, List.getLast?_cons_cons, writerCount]
        rw [show (publisher_node (stepIter maxRev capMsg o i s)) =
          stepIter maxRev capMsg o i s from rfl, stepIter_rc]
      · have : lastState [(NodeName.WRITER, writer_node (o.gen i) s),
            (NodeName.REVIEWER, stepIter maxRev capMsg o i s),
            (NodeName.PUBLISHER, publisher_node (stepIter maxRev capMsg o i s))] =
            publisher_node (stepIter maxRev capMsg o i s) := by
          simp [lastState, List.getLast?_cons_cons]
        rw [this, show (publisher_node (stepIter maxRev capMsg o i s)) =
          stepIter maxRev capMsg o i s from rfl, stepIter_rc]
        omega

/-- The `continue_revision` readings of the states in a trace. -/
def traceFlags (t : List (String × MessageResponseState)) : List Bool :=
  t.map (fun e => e.2.continue_revision.getD false)

lemma loopTraceF_flags (maxRev : Nat) (capMsg : String) (o : Oracles) :
    ∀ fuel i s t, loopTraceF maxRev capMsg o fuel i s = some t →
      s.continue_revision.getD false = true →
      ∃ a b, traceFlags t = List.replicate a true ++ List.replicate b false := by
  intro fuel
  induction fuel with
  | zero => intro i s t h; exact absurd h (by simp [loopTraceF])
  | succ f ih =>
    intro i s t h hflag
    rw [loopTraceF] at h
    split at h
    · rename_i hcont
      rcases Option.map_eq_some'.mp h with ⟨t0, ht0, rfl⟩
      have hsr : (stepIter maxRev capMsg o i s).continue_revision.getD false =
          true := (should_continue_writer_iff _).mp hcont
      rcases ih (i + 1) (stepIter maxRev capMsg o i s) t0 ht0 hsr with ⟨a, b, hab⟩
      refine ⟨a + 2, b, ?_⟩
      have hw : (writer_node (o.gen i) s).continue_revision.getD false = true := by
        rw [writer_continue]
        exact hflag
      simp only [traceFlags, List.map_cons] at hab ⊢
      rw [hw, hsr, hab]
      rfl
    · rename_i hstop
      cases h
      have hsr : (stepIter maxRev capMsg o i s).continue_revision.getD false =
          false := by
        rcases stepIter_continue_flag maxRev capMsg o i s with hT | hF
        · exact absurd ((should_continue_writer_iff _).mpr hT) hstop
        · exact hF
      have hw : (writer_node (o.gen i) s).continue_revision.getD false = true := by
        rw [writer_continue]
        exact hflag
      refine ⟨1, 2, ?_⟩
      simp only [traceFlags, List.map_cons, List.map_nil]
      rw [hw, hsr, show (publisher_node (stepIter maxRev capMsg o i s)) =
        stepIter maxRev capMsg o i s from rfl, hsr]
      rfl

lemma loopTraceF_chain (maxRev : Nat) (capMsg : String) (o : Oracles) :
    ∀ fuel i s t, loopTraceF maxRev capMsg o fuel i s = some t →
      List.Chain' (fun a b => a ≤ b) ((s :: t.map Prod.snd).map rcD) := by
  intro fuel
  induction fuel with
  | zero => intro i s t h; exact absurd h (by simp [loopTraceF])
  | succ f ih =>
    intro i s t h
    rw [loopTraceF] at h
    have hw : rcD (writer_node (o.gen i) s) = rcD s + 1 := by
      unfold rcD
      rw [writer_rc]
      rfl
    have hr := stepIter_rc maxRev capMsg o i s
    split at h
    · rename_i hcont
      rcases Option.map_eq_some'.mp h with ⟨t0, ht0, rfl⟩
      have hchain := ih (i + 1) (stepIter maxRev capMsg o i s) t0 ht0
      simp only [List.map_cons, List.chain'_cons] at hchain ⊢
      exact ⟨by omega, by omega, hchain⟩
    · cases h
      simp only [List.map_cons, List.map_nil, List.chain'_cons]
      refine ⟨by omega, by omega, ?_, List.chain'_singleton _⟩
      rw [show (publisher_node (stepIter maxRev capMsg o i s)) =
        stepIter maxRev capMsg o i s from rfl]

lemma runFlags_shape (maxRev : Nat) (capMsg : String) (o : Oracles)
    (msg : String) :
    ∃ a b, runFlags maxRev capMsg o msg =
      List.replicate a true ++ List.replicate b false := by
  rcases run_spec maxRev capMsg o msg with ⟨t, ht, hrun⟩
  rcases loopTraceF_flags maxRev capMsg o (maxRev + 1) 0 (initial_state msg)
    t ht rfl with ⟨a, b, hab⟩
  refine ⟨a + 1, b, ?_⟩
  unfold runFlags
  rw [hrun]
  simp only [List.map_cons]
  have hmap : ((t.map Prod.snd).map
      fun st => st.continue_revision.getD false) = traceFlags t := by
    rw [List.map_map]
    rfl
  rw [hmap, hab, List.replicate_succ]
  rfl

lemma trueFalse_true_index (a b i : Nat)
    (h : (List.replicate a true ++ List.replicate b false)[i]? = some true) :
    i < a := by
  by_contra hge
  push_neg at hge
  rw [List.getElem?_append_right (by simpa using hge),
    List.getElem?_replicate] at h
  split at h <;> simp_all

lemma trueFalse_false_index (a b i : Nat)
    (h : (List.replicate a true ++ List.replicate b false)[i]? = some false) :
    a ≤ i := by
  by_contra hlt
  push_neg at hlt
  rw [List.getElem?_append_left (by simpa using hlt),
    List.getElem?_replicate] at h
  split at h <;> simp_all

lemma create_writer_messages_length (p : String) (s : MessageResponseState)
    (fb : Option String) :
    (_create_writer_messages p s fb).length =
      s.messages.length + 2 + (if truthy fb then 1 else 0) := by
  cases h : truthy fb <;> simp [_create_writer_messages, h]

lemma truthy_writer_feedback (s : MessageResponseState) :
    truthy (writer_feedback s) = true ↔
      (0 < rcD s ∧ s.latest_reviewer_decision = some Decision.REVISE ∧
        s.latest_feedback_for_writer.getD "" ≠ "") := by
  unfold writer_feedback
  split
  · rename_i hcond
    simp only [Bool.and_eq_true, decide_eq_true_eq, beq_iff_eq] at hcond
    simp only [truthy, Bool.not_eq_true']
    constructor
    · intro h
      exact ⟨hcond.1, hcond.2, by simpa using h⟩
    · intro ⟨_, _, h3⟩
      simpa using h3
  · rename_i hcond
    simp only [Bool.and_eq_true, decide_eq_true_eq, beq_iff_eq, not_and] at hcond
    constructor
    · intro h
      cases h
    · intro ⟨h1, h2, _⟩
      exact absurd h2 (hcond h1)

/-- Constant collaborator outputs used for concrete executions: the writer
generation is "draft", the reviewer feedback "feedback", and decision
extraction yields APPROVE. -/
def demoOracles : Oracles :=
  ⟨fun _ => "draft", fun _ => "feedback", fun _ => some Decision.APPROVE⟩

/-! ### Claim theorems -/

/-- C1: in every run of the state machine the number of Writer invocations
is at most `MAX_REVISIONS + 1`, and the terminal state's `revision_count`
satisfies `0 < revision_count ≤ MAX_REVISIONS + 1`, for every configured
cap, cap message, collaborator behaviour and input message. -/
theorem run_writer_invocations_bounded (maxRev : Nat) (capMsg : String)
    (o : Oracles) (msg : String) :
    writerCount (run maxRev capMsg o msg) ≤ maxRev + 1 ∧
    0 < rcD (lastState (run maxRev capMsg o msg)) ∧
    rcD (lastState (run maxRev capMsg o msg)) ≤ maxRev + 1 := by
  rcases run_spec maxRev capMsg o msg with ⟨t, ht, hrun⟩
  obtain ⟨hne, hwc, hlast, hbound⟩ :=
    loopTraceF_spec maxRev capMsg o (maxRev + 1) 0 (initial_state msg) t ht
  have h0 : rcD (initial_state msg) = 0 := rfl
  rw [hrun]
  omega

/-- C2: whenever `revision_count ≥ MAX_REVISIONS` on entry, the Reviewer
short-circuits: it sets `decision = APPROVE` and `continue_flag = false`,
appends log entries whose first one carries the configured cap message,
and performs zero generation-capability invocations. -/
theorem reviewer_cap_short_circuit (maxRev : Nat) (capMsg fb : String)
    (ext : Option String) (s : MessageResponseState) (h : maxRev ≤ rcD s) :
    (reviewer_node maxRev capMsg fb ext s).latest_reviewer_decision =
      some Decision.APPROVE ∧
    (reviewer_node maxRev capMsg fb ext s).continue_revision = some false ∧
    (reviewer_node maxRev capMsg fb ext s).messages = s.messages ++
      [Entry.mk "human" (some NodeName.REVIEWER) capMsg,
       Entry.mk "human" (some NodeName.REVIEWER)
         (toString (rcD s) ++ " reviewer decision: " ++ Decision.APPROVE),
       Entry.mk "human" (some NodeName.REVIEWER)
         (toString (rcD s) ++ " continue revision?: " ++ pyBool false)] ∧
    Entry.mk "human" (some NodeName.REVIEWER) capMsg ∈
      (reviewer_node maxRev capMsg fb ext s).messages ∧
    reviewer_llm_calls maxRev s = 0 := by
  have hge : rcD s ≥ maxRev := h
  refine ⟨?_, ?_, ?_, ?_, ?_⟩ <;> simp [reviewer_node, reviewer_llm_calls, hge]

/-- Witness for C2 at `maxRev = 3` and a state with `revision_count = 3`. -/
theorem reviewer_cap_short_circuit_witness :
    (reviewer_node 3 "CAP" "fb" none
        ({ revision_count := some 3 } : MessageResponseState)).continue_revision =
      some false ∧
    reviewer_llm_calls 3 ({ revision_count := some 3 } : MessageResponseState) =
      0 := by
  have h := reviewer_cap_short_circuit 3 "CAP" "fb" none
    ({ revision_count := some 3 } : MessageResponseState) (by decide)
  exact ⟨h.2.1, h.2.2.2.2⟩

/-- C3: `should_continue` is a pure function of `continue_revision` alone:
it routes to the writer iff the flag is exactly `true`, and to the
publisher whenever the flag is false or the key is absent. -/
theorem should_continue_pure_routing (s : MessageResponseState) :
    (should_continue s = NodeName.WRITER ↔ s.continue_revision = some true) ∧
    (s.continue_revision ≠ some true →
      should_continue s = NodeName.PUBLISHER) ∧
    (∀ t : MessageResponseState, s.continue_revision = t.continue_revision →
      should_continue s = should_continue t) := by
  refine ⟨?_, ?_, ?_⟩
  · rw [should_continue_writer_iff]
    cases h : s.continue_revision with
    | none => simp
    | some b => cases b <;> simp
  · intro hne
    have hfalse : s.continue_revision.getD false = false := by
      cases h : s.continue_revision with
      | none => rfl
      | some b =>
        cases b with
        | false => rfl
        | true => exact absurd h hne
    simp [should_continue, hfalse]
  · intro t h
    unfold should_continue
    rw [h]

/-- Witness for C3: a `false` flag and an absent flag both route to the
publisher. -/
theorem should_continue_pure_routing_witness :
    should_continue ({ continue_revision := some false } :
      MessageResponseState) = NodeName.PUBLISHER ∧
    should_continue ({} : MessageResponseState) = NodeName.PUBLISHER :=
  ⟨(should_continue_pure_routing _).2.1 (by decide),
   (should_continue_pure_routing _).2.1 (by decide)⟩

/-- C4: a non-short-circuited Reviewer invocation sets
`continue_flag = (decision == REVISE) && (revision_count < MAX_REVISIONS)`
with `decision` the extracted value (defaulted to REVISE when absent), and
after every Reviewer invocation `decision = APPROVE` implies
`continue_flag = false`. -/
theorem reviewer_continue_flag_rule (maxRev : Nat) (capMsg fb : String)
    (ext : Option String) (s : MessageResponseState) :
    (rcD s < maxRev →
      (reviewer_node maxRev capMsg fb ext s).continue_revision =
        some ((ext.getD Decision.REVISE == Decision.REVISE) &&
          decide (rcD s < maxRev))) ∧
    ((reviewer_node maxRev capMsg fb ext s).latest_reviewer_decision =
        some Decision.APPROVE →
      (reviewer_node maxRev capMsg fb ext s).continue_revision =
        some false) := by
  constructor
  · intro hlt
    have hn : ¬ rcD s ≥ maxRev := by omega
    simp [reviewer_node, hn]
  · intro hdec
    by_cases hge : rcD s ≥ maxRev
    · simp [reviewer_node, hge]
    · simp [reviewer_node, hge] at hdec ⊢
      rw [hdec]
      decide

/-- Witness for C4: with an APPROVE extraction and `revision_count = 1`
the flag computes to false. -/
theorem reviewer_continue_flag_rule_witness :
    (reviewer_node 3 "CAP" "fb" (some Decision.APPROVE)
        ({ revision_count := some 1 } : MessageResponseState)).continue_revision =
      some false := by
  have h := (reviewer_continue_flag_rule 3 "CAP" "fb" (some Decision.APPROVE)
    ({ revision_count := some 1 } : MessageResponseState)).1 (by decide)
  rw [h]
  decide

/-- C5: a Writer invocation increments `revision_count` by exactly one,
Reviewer and Publisher invocations leave it unchanged, and along any whole
run the counter readings form a non-decreasing chain (it is never
decremented). -/
theorem revision_count_monotone (gen : String) (maxRev : Nat)
    (capMsg fb : String) (ext : Option String) (s : MessageResponseState)
    (o : Oracles) (msg : String) :
    (writer_node gen s).revision_count = some (rcD s + 1) ∧
    (reviewer_node maxRev capMsg fb ext s).revision_count =
      s.revision_count ∧
    (publisher_node s).revision_count = s.revision_count ∧
    List.Chain' (fun a b => a ≤ b)
      ((initial_state msg :: (run maxRev capMsg o msg).map Prod.snd).map
        rcD) := by
  refine ⟨writer_rc gen s, reviewer_rc maxRev capMsg fb ext s, rfl, ?_⟩
  rcases run_spec maxRev capMsg o msg with ⟨t, ht, hrun⟩
  rw [hrun]
  exact loopTraceF_chain maxRev capMsg o (maxRev + 1) 0 (initial_state msg)
    t ht

/-- C6 counterexample: with `revision_count = 1 < 3 = MAX_REVISIONS`, an
extraction result carrying the unrecognized value "MAYBE" is NOT treated
as REVISE: the stored decision is "MAYBE" itself and `continue_flag` is
false, whereas treating it as REVISE would give `continue_flag = true`. -/
theorem reviewer_unrecognized_decision_cex :
    rcD ({ revision_count := some 1 } : MessageResponseState) < 3 ∧
    (reviewer_node 3 "CAP" "fb" (some "MAYBE")
        ({ revision_count := some 1 } :
          MessageResponseState)).latest_reviewer_decision = some "MAYBE" ∧
    "MAYBE" ≠ Decision.REVISE ∧
    (reviewer_node 3 "CAP" "fb" (some "MAYBE")
        ({ revision_count := some 1 } :
          MessageResponseState)).continue_revision ≠ some true := by
  decide

/-- C6 amended: when extraction yields no decision value at all the
Reviewer defaults to REVISE (with `continue_flag` computed accordingly),
but an unrecognized extracted value is stored unchanged as the decision
and yields `continue_flag = false`, even below the cap. -/
theorem reviewer_extraction_default_rule (maxRev : Nat) (capMsg fb : String)
    (s : MessageResponseState) (h : rcD s < maxRev) :
    ((reviewer_node maxRev capMsg fb none s).latest_reviewer_decision =
        some Decision.REVISE ∧
     (reviewer_node maxRev capMsg fb none s).continue_revision =
        some true) ∧
    (∀ v, v ≠ Decision.REVISE →
      (reviewer_node maxRev capMsg fb (some v) s).latest_reviewer_decision =
        some v ∧
      (reviewer_node maxRev capMsg fb (some v) s).continue_revision =
        some false) := by
  have hn : ¬ rcD s ≥ maxRev := by omega
  have hd : decide (rcD s < maxRev) = true := decide_eq_true h
  constructor
  · constructor
    · simp [reviewer_node, hn]
    · simp [reviewer_node, hn, hd]
  · intro v hv
    constructor
    · simp [reviewer_node, hn]
    · have hb : (v == Decision.REVISE) = false := by
        simp [hv]
      simp [reviewer_node, hn, hb]

/-- Witness for the amended C6 at `maxRev = 3`, `revision_count = 1`:
a missing decision key defaults to REVISE, and the unrecognized value
APPROVE-adjacent case uses the pass-through branch. -/
theorem reviewer_extraction_default_rule_witness :
    (reviewer_node 3 "CAP" "fb" none
        ({ revision_count := some 1 } :
          MessageResponseState)).latest_reviewer_decision =
      some Decision.REVISE ∧
    (reviewer_node 3 "CAP" "fb" (some Decision.APPROVE)
        ({ revision_count := some 1 } :
          MessageResponseState)).continue_revision = some false := by
  have h := reviewer_extraction_default_rule 3 "CAP" "fb"
    ({ revision_count := some 1 } : MessageResponseState) (by decide)
  exact ⟨h.1.1, (h.2 Decision.APPROVE (by decide)).2⟩

/-- C7 counterexample: a run on the empty original message is not
rejected: with concrete collaborator outputs the compiled graph starts at
the writer node and performs one Writer invocation. -/
theorem empty_message_not_rejected_cex :
    (run 3 MAX_REVISIONS_MESSAGE demoOracles "").head?.map Prod.fst =
      some NodeName.WRITER ∧
    writerCount (run 3 MAX_REVISIONS_MESSAGE demoOracles "") = 1 ∧
    (initial_state "").original_customer_message = some "" := by
  decide

/-- C7 amended: `process_customer_message` performs no input validation:
an empty original message flows into the initial state unchanged and the
run still invokes the Writer at least once, for every configuration and
collaborator behaviour. -/
theorem empty_message_enters_loop (maxRev : Nat) (capMsg : String)
    (o : Oracles) :
    0 < writerCount (run maxRev capMsg o "") ∧
    (initial_state "").original_customer_message = some "" := by
  refine ⟨?_, rfl⟩
  rcases run_spec maxRev capMsg o "" with ⟨t, ht, hrun⟩
  obtain ⟨_, hwc, _, _⟩ :=
    loopTraceF_spec maxRev capMsg o (maxRev + 1) 0 (initial_state "") t ht
  rw [hrun]
  exact hwc

/-- C8 counterexample: in a state with `revision_count = 1`,
`decision = REVISE` but an empty stored feedback string, the writer
request contains NO feedback directive (it has `messages.length + 2`
entries, not `+ 3`), although the claimed condition
`revision_count > 0 ∧ decision == REVISE` holds. -/
theorem writer_feedback_iff_cex :
    let s : MessageResponseState :=
      { revision_count := some 1,
        latest_reviewer_decision := some Decision.REVISE,
        latest_feedback_for_writer := some "" }
    0 < rcD s ∧ s.latest_reviewer_decision = some Decision.REVISE ∧
      (writer_request "P" s).length = s.messages.length + 2 := by
  decide

/-- C8 amended: the writer request carries the feedback directive iff
`revision_count > 0`, the latest decision is REVISE AND the stored
feedback text is non-empty (Python `if feedback:` drops empty feedback);
on a first call (`revision_count = 0`) it is never included. -/
theorem writer_feedback_inclusion (p : String) (s : MessageResponseState) :
    ((writer_request p s).length = s.messages.length + 3 ↔
      (0 < rcD s ∧ s.latest_reviewer_decision = some Decision.REVISE ∧
        s.latest_feedback_for_writer.getD "" ≠ "")) ∧
    (rcD s = 0 → (writer_request p s).length = s.messages.length + 2) := by
  have hlen := create_writer_messages_length p s (writer_feedback s)
  constructor
  · rw [← truthy_writer_feedback]
    unfold writer_request
    rw [hlen]
    cases h : truthy (writer_feedback s) <;> simp [h]
  · intro h0
    unfold writer_request
    rw [hlen]
    have hf : truthy (writer_feedback s) = false := by
      cases h : truthy (writer_feedback s)
      · rfl
      · have := (truthy_writer_feedback s).mp h
        omega
    rw [hf]
    simp

/-- Witness for the amended C8: on a state with `revision_count = 0` the
request has exactly the two base entries beyond the prior log. -/
theorem writer_feedback_inclusion_witness :
    (writer_request "P"
        ({ revision_count := some 0 } : MessageResponseState)).length = 2 := by
  have h := (writer_feedback_inclusion "P"
    ({ revision_count := some 0 } : MessageResponseState)).2 rfl
  simpa using h

/-- C9 counterexample: a cap-short-circuited Reviewer invocation does not
overwrite `latest_feedback_for_writer`: with `revision_count = 3` and cap
3 the previous critique "old" survives even though the feedback oracle of
this invocation would produce "new critique". -/
theorem feedback_cap_branch_cex :
    (reviewer_node 3 "CAP" "new critique" (some Decision.APPROVE)
        ({ revision_count := some 3, latest_feedback_for_writer := some "old" } :
          MessageResponseState)).latest_feedback_for_writer = some "old" ∧
    ("old" : String) ≠ "new critique" := by
  decide

/-- C9 amended: `feedback` starts empty, Writer and Publisher invocations
never touch it, every NON-short-circuited Reviewer invocation overwrites
it with that invocation's critique, and a cap-short-circuited invocation
leaves it unchanged. -/
theorem feedback_overwrite_rule (maxRev : Nat) (capMsg fb gen msg : String)
    (ext : Option String) (s : MessageResponseState) :
    (initial_state msg).latest_feedback_for_writer = some "" ∧
    (writer_node gen s).latest_feedback_for_writer =
      s.latest_feedback_for_writer ∧
    (rcD s < maxRev →
      (reviewer_node maxRev capMsg fb ext s).latest_feedback_for_writer =
        some fb) ∧
    (maxRev ≤ rcD s →
      (reviewer_node maxRev capMsg fb ext s).latest_feedback_for_writer =
        s.latest_feedback_for_writer) ∧
    (publisher_node s).latest_feedback_for_writer =
      s.latest_feedback_for_writer := by
  refine ⟨rfl, rfl, ?_, ?_, rfl⟩
  · intro h
    have hn : ¬ rcD s ≥ maxRev := by omega
    simp [reviewer_node, hn]
  · intro h
    have hge : rcD s ≥ maxRev := h
    simp [reviewer_node, hge]

/-- Witness for the amended C9: a normal review overwrites the feedback
with the new critique; a capped review keeps the old one. -/
theorem feedback_overwrite_rule_witness :
    (reviewer_node 3 "CAP" "crit" none
        ({ revision_count := some 1 } :
          MessageResponseState)).latest_feedback_for_writer = some "crit" ∧
    (reviewer_node 3 "CAP" "crit" none
        ({ revision_count := some 3, latest_feedback_for_writer := some "old" } :
          MessageResponseState)).latest_feedback_for_writer = some "old" := by
  constructor
  · exact (feedback_overwrite_rule 3 "CAP" "crit" "g" "m" none
      ({ revision_count := some 1 } : MessageResponseState)).2.2.1 (by decide)
  · exact (feedback_overwrite_rule 3 "CAP" "crit" "g" "m" none
      ({ revision_count := some 3, latest_feedback_for_writer := some "old" } :
        MessageResponseState)).2.2.2.1 (by decide)

/-- C10: along any run (initial state included) the router's reading of
`continue_flag` is one-directional: once some reached state reads false,
no later reached state reads true. -/
theorem continue_flag_one_directional (maxRev : Nat) (capMsg : String)
    (o : Oracles) (msg : String) (i j : Nat) (hij : i ≤ j)
    (hi : (runFlags maxRev capMsg o msg)[i]? = some false) :
    (runFlags maxRev capMsg o msg)[j]? ≠ some true := by
  rcases runFlags_shape maxRev capMsg o msg with ⟨a, b, hab⟩
  rw [hab] at hi ⊢
  intro hj
  have h1 := trueFalse_false_index a b i hi
  have h2 := trueFalse_true_index a b j hj
  omega

/-- Witness for C10 on a concrete run: the flag reads false at position 2
(after the first review) and therefore cannot read true at position 3. -/
theorem continue_flag_one_directional_witness :
    (runFlags 3 MAX_REVISIONS_MESSAGE demoOracles "hi")[3]? ≠ some true :=
  continue_flag_one_directional 3 MAX_REVISIONS_MESSAGE demoOracles "hi" 2 3
    (by omega) (by decide)

end Reflection
